import Mathlib

/-!
Verification of the TLO mTLS proxy (src/app/server.js).

The development shallowly embeds the request-handling pipeline of the proxy:
shared-secret authentication, body validation, SOAP envelope construction
(`buildSoap` / `xmlEscape`), the outbound call with its retry loop
(`runAttempts`), and response classification (`classifyExchange`).

External collaborators are modelled as oracles:
 - the xml2js call `parseStringPromise(raw, {explicitArray:false})` followed by
   the optional-chain navigation to `PersonSearchResult` is modelled as a
   function `parse : String → ParseOutcome`; `ParseOutcome.perr` is the
   rejection of the promise (xml2js rejects on malformed XML), `ParseOutcome.pok
   none` is a resolved parse whose navigation produced a falsy value (empty
   body, unexpected schema), and `ParseOutcome.pok (some r)` is a navigated
   result node;
 - each iteration of the retry loop consumes one element of a `List Attempt`
   describing how that attempt's `callTlo` promise settled; an attempt whose
   promise never settles is modelled by the list simply ending there, in which
   case the handler never responds (`none`).
-/

namespace TloProxy

/-! ### JavaScript value model

Request-body fields arrive as arbitrary JSON values; the handler tests them
with JavaScript truthiness (`!firstName`) and stringifies them with `String(v)`
inside `xmlEscape`. -/

/-- JSON values that can occur in a request-body field (objects and arrays are
not needed by any claim and are omitted; both are truthy in JavaScript). -/
inductive JsValue where
  | null
  | bool (b : Bool)
  | num (n : Int)
  | str (s : String)
deriving DecidableEq

/-- JavaScript truthiness of a value. -/
def JsValue.truthy : JsValue → Bool
  | .null => false
  | .bool b => b
  | .num n => n != 0
  | .str s => s != ""

/-- JavaScript `String(v)` conversion (integer numbers print in decimal). -/
def JsValue.toStr : JsValue → String
  | .null => "null"
  | .bool true => "true"
  | .bool false => "false"
  | .num n => toString n
  | .str s => s

/-- Truthiness of a possibly absent field (`undefined` is falsy). -/
def truthyOpt : Option JsValue → Bool
  | none => false
  | some v => v.truthy

/-- JavaScript `String(v)` for a possibly absent field (`String(undefined)` is
the string `"undefined"`; this point is unreachable after validation). -/
def jsOptToStr : Option JsValue → String
  | none => "undefined"
  | some v => v.toStr

/-! ### Configuration constants of server.js -/

/-- CONFIG.RETRIES in server.js. -/
def RETRIES : Nat := 2

/-- CONFIG.TIMEOUT_MS in server.js. -/
def TIMEOUT_MS : Nat := 20000

/-- Process configuration: the shared secret (absent when the SHARED_SECRET
environment variable is unset) and the upstream account credentials. -/
structure Config where
  sharedSecret : Option String
  tloUsername : String
  tloPassword : String
deriving DecidableEq

/-! ### xmlEscape and buildSoap -/

/-- The apostrophe character (code point 39). -/
def apos : Char := Char.ofNat 39

/-- Entity text of the five predefined XML escapes. -/
def ampEnt : List Char := ['&', 'a', 'm', 'p', ';']

/-- Entity text of the lower-than escape. -/
def ltEnt : List Char := ['&', 'l', 't', ';']

/-- Entity text of the greater-than escape. -/
def gtEnt : List Char := ['&', 'g', 't', ';']

/-- Entity text of the double-quote escape. -/
def quotEnt : List Char := ['&', 'q', 'u', 'o', 't', ';']

/-- Entity text of the apostrophe escape. -/
def aposEnt : List Char := ['&', 'a', 'p', 'o', 's', ';']

/-- JavaScript `s.replace(/c/g, repl)` for a single-character pattern `c`:
every occurrence of `c` is replaced by `repl`. -/
def replAll (c : Char) (repl : List Char) : List Char → List Char
  | [] => []
  | x :: xs => (if x = c then repl else [x]) ++ replAll c repl xs

/-- The `xmlEscape` function of server.js: five sequential global
single-character replacements, `&` first, then `<`, `>`, `"`, apostrophe. -/
def xmlEscape (s : String) : String :=
  ⟨replAll apos aposEnt (replAll '"' quotEnt (replAll '>' gtEnt
    (replAll '<' ltEnt (replAll '&' ampEnt s.data))))⟩

/-- Template text of the SOAP envelope up to the Username content. -/
def soapSeg1 : String :=
  "<?xml version=\"1.0\" encoding=\"utf-8\"?>\n<soapenv:Envelope xmlns:soapenv=\"http://schemas.xmlsoap.org/soap/envelope/\" xmlns:tlo=\"http://tlo.com/\">\n  <soapenv:Header/>\n  <soapenv:Body>\n    <tlo:PersonSearch>\n      <tlo:genericSearchInput>\n        <tlo:Username>"

/-- Template text between the Username and Password contents. -/
def soapSeg2 : String := "</tlo:Username>\n        <tlo:Password>"

/-- Template text between the Password and FirstName contents (contains the
fixed purpose codes, page size 25 and starting record 1). -/
def soapSeg3 : String :=
  "</tlo:Password>\n        <tlo:DPPAPurpose>0</tlo:DPPAPurpose>\n        <tlo:GLBPurpose>0</tlo:GLBPurpose>\n        <tlo:NumberOfRecords>25</tlo:NumberOfRecords>\n        <tlo:StartingRecord>1</tlo:StartingRecord>\n        <tlo:Name>\n          <tlo:FirstName>"

/-- Template text between the FirstName and LastName contents. -/
def soapSeg4 : String := "</tlo:FirstName>\n          <tlo:LastName>"

/-- Template text between the LastName and SSN contents. -/
def soapSeg5 : String := "</tlo:LastName>\n        </tlo:Name>\n        <tlo:SSN>"

/-- Template text after the SSN content, closing every element. -/
def soapSeg6 : String :=
  "</tlo:SSN>\n      </tlo:genericSearchInput>\n    </tlo:PersonSearch>\n  </soapenv:Body>\n</soapenv:Envelope>"

/-- The `buildSoap` function of server.js: the fixed template with the five
escaped strings interpolated (credentials from CONFIG, the three search fields
from the request body). -/
def buildSoap (username password firstName lastName ssn : String) : String :=
  soapSeg1 ++ xmlEscape username ++ soapSeg2 ++ xmlEscape password ++ soapSeg3 ++
    xmlEscape firstName ++ soapSeg4 ++ xmlEscape lastName ++ soapSeg5 ++
    xmlEscape ssn ++ soapSeg6

/-- The `buildSoap` call as made by the route handler: the raw body fields are
stringified by `String(v)` inside `xmlEscape`. -/
def buildSoapJs (username password : String) (firstName lastName ssn : Option JsValue) : String :=
  buildSoap username password (jsOptToStr firstName) (jsOptToStr lastName) (jsOptToStr ssn)

/-! ### Transport event model of callTlo

The `callTlo` function issues `https.request` with the `timeout` option set to
TIMEOUT_MS and registers exactly three callbacks: response `data`, response
`end` (resolving the promise), and request `error` (rejecting it). The
`timeout` option makes the socket emit a `timeout` event after 20s of
inactivity, but server.js installs no listener for it and never destroys the
request, so the event has no effect on the promise. The promise is a fold over
the observed events; `none` means it never settled. -/

/-- Events that can be delivered to the callbacks of one `callTlo` attempt. -/
inductive ReqEvent where
  | resData (chunk : String)
  | resEnd (status : Nat)
  | reqError (msg : String)
  | reqTimeout
deriving DecidableEq

/-- A completed HTTP exchange: status code and raw response body. -/
structure Exchange where
  httpStatus : Nat
  raw : String
deriving DecidableEq

/-- How the promise of one attempt settles, given the event sequence: the
first `resEnd` resolves with the concatenated chunks, the first `reqError`
rejects, and `reqTimeout` matches no registered listener and is skipped. -/
def callTloOutcome (chunks : List String) : List ReqEvent → Option (Except String Exchange)
  | [] => none
  | .resData c :: es => callTloOutcome (chunks ++ [c]) es
  | .resEnd status :: _ => some (.ok ⟨status, String.join chunks⟩)
  | .reqError m :: _ => some (.error m)
  | .reqTimeout :: es => callTloOutcome chunks es

/-! ### JavaScript Number() conversion

The success branch computes `Number(result.NumberOfRecordsFound)`. The model
follows the ECMAScript string-to-number grammar: surrounding whitespace is
trimmed, the empty remainder is 0, `Infinity` with optional sign is infinite,
`0x`/`0o`/`0b` prefixes (signless) give radix literals, and otherwise a signed
decimal literal with optional fraction and exponent is parsed; anything else
is NaN. Values are exact rationals (float64 rounding is not modelled; no claim
depends on it), and `Number(undefined)` is NaN. -/

/-- JavaScript numbers as far as claims need them: NaN, signed infinity, or a
finite (rational) value. -/
inductive JNum where
  | nan
  | inf (neg : Bool)
  | fin (q : Rat)
deriving DecidableEq

/-- Longest leading run of decimal digits, and the remainder. -/
def takeDigits : List Char → List Char × List Char
  | [] => ([], [])
  | c :: cs =>
    if c.isDigit then
      let p := takeDigits cs
      (c :: p.1, p.2)
    else ([], c :: cs)

/-- Value of a run of decimal digits. -/
def digitsToNat (ds : List Char) : Nat :=
  ds.foldl (fun acc c => acc * 10 + (c.toNat - 48)) 0

/-- Value of one digit in radix up to 16, `none` for a non-digit. -/
def hexDigitVal (c : Char) : Option Nat :=
  if c.isDigit then some (c.toNat - 48)
  else if 'a' ≤ c ∧ c ≤ 'f' then some (c.toNat - 87)
  else if 'A' ≤ c ∧ c ≤ 'F' then some (c.toNat - 55)
  else none

/-- Value of a nonempty digit string in the given radix, `none` on any digit
out of range. -/
def radixDigits (radix : Nat) (cs : List Char) : Option Nat :=
  cs.foldl
    (fun acc c => acc.bind (fun a =>
      (hexDigitVal c).bind (fun d => if d < radix then some (a * radix + d) else none)))
    (if cs.isEmpty then none else some 0)

/-- Exponent part of a decimal literal: empty input means exponent 0; else
`e`/`E`, an optional sign and a nonempty digit run consuming the rest. -/
def parseExpPart : List Char → Option Int
  | [] => some 0
  | c :: cs =>
    if c = 'e' ∨ c = 'E' then
      match cs with
      | '+' :: ds => if ds.isEmpty then none else
          if ds.all Char.isDigit then some (digitsToNat ds) else none
      | '-' :: ds => if ds.isEmpty then none else
          if ds.all Char.isDigit then some (-(digitsToNat ds : Int)) else none
      | ds => if ds.isEmpty then none else
          if ds.all Char.isDigit then some (digitsToNat ds) else none
    else none

/-- Rational value of integer digits, fraction digits and a decimal exponent. -/
def decValue (ip fp : List Char) (e : Int) : Rat :=
  ((digitsToNat ip : Rat) + (digitsToNat fp : Rat) / (10 : Rat) ^ fp.length) * (10 : Rat) ^ e

/-- Unsigned decimal literal `digits [. digits] [exponent]` with at least one
digit before or after the point, consuming the whole input. -/
def parseUnsignedDec (cs : List Char) : Option Rat :=
  let p := takeDigits cs
  match p.2 with
  | '.' :: r2 =>
    let q := takeDigits r2
    if p.1.isEmpty && q.1.isEmpty then none
    else (parseExpPart q.2).map (decValue p.1 q.1)
  | _ =>
    if p.1.isEmpty then none
    else (parseExpPart p.2).map (decValue p.1 [])

/-- The ECMAScript whitespace and line terminators trimmed by Number(),
restricted to the usual code points (space, tab, LF, VT, FF, CR, NBSP, BOM). -/
def jsSpace (c : Char) : Bool :=
  c == ' ' || c == '\t' || c == '\n' || c == '\r' ||
    c.toNat == 11 || c.toNat == 12 || c.toNat == 160 || c.toNat == 65279

/-- Trim jsSpace from both ends. -/
def jsTrim (cs : List Char) : List Char :=
  ((cs.dropWhile jsSpace).reverse.dropWhile jsSpace).reverse

/-- Strip an optional leading sign, returning whether it was a minus. -/
def signSplit : List Char → Bool × List Char
  | '+' :: cs => (false, cs)
  | '-' :: cs => (true, cs)
  | cs => (false, cs)

/-- JavaScript `Number(s)` for a string argument. -/
def jsStringToNumber (s : String) : JNum :=
  match jsTrim s.data with
  | [] => .fin 0
  | '0' :: 'x' :: rest =>
    match radixDigits 16 rest with | some n => .fin n | none => .nan
  | '0' :: 'X' :: rest =>
    match radixDigits 16 rest with | some n => .fin n | none => .nan
  | '0' :: 'o' :: rest =>
    match radixDigits 8 rest with | some n => .fin n | none => .nan
  | '0' :: 'O' :: rest =>
    match radixDigits 8 rest with | some n => .fin n | none => .nan
  | '0' :: 'b' :: rest =>
    match radixDigits 2 rest with | some n => .fin n | none => .nan
  | '0' :: 'B' :: rest =>
    match radixDigits 2 rest with | some n => .fin n | none => .nan
  | cs =>
    let p := signSplit cs
    if p.2 = "Infinity".data then .inf p.1
    else
      match parseUnsignedDec p.2 with
      | some q => .fin (if p.1 then -q else q)
      | none => .nan

/-- JavaScript `Number(v)` for the `NumberOfRecordsFound` field: an absent
field is `Number(undefined) = NaN`. -/
def jsNumberOfField : Option String → JNum
  | none => .nan
  | some s => jsStringToNumber s

/-! ### Upstream responses, classification and the retry loop -/

/-- How one attempt's `callTlo` promise settled: rejected with a transport
cause, or resolved with a completed HTTP exchange. -/
inductive Attempt where
  | transportErr (cause : String)
  | completed (ex : Exchange)
deriving DecidableEq

/-- The navigated `PersonSearchResult` node as produced by xml2js with
`explicitArray: false`: scalar child elements collapse to strings, absent
children are `undefined` (`none`), and an empty element is the empty string.
Children other than the four the handler reads are carried in `others`. -/
structure ResultNode where
  errorCode : Option String
  errorMessage : Option String
  transactionId : Option String
  numberOfRecordsFound : Option String
  others : List (String × String)
deriving DecidableEq

/-- Outcome of `parseStringPromise` followed by the optional-chain navigation
to `PersonSearchResult`: `perr` is a rejected parse (malformed XML), `pok none`
a resolved parse with a falsy navigation result, `pok (some r)` a result node. -/
inductive ParseOutcome where
  | perr (msg : String)
  | pok (result : Option ResultNode)
deriving DecidableEq

/-- JSON bodies the route can answer with. Fixed keys and string constants are
implicit in the constructor; dynamic fields are carried as data. -/
inductive Body where
  | unauthorized
  | invalidInput
  | parseFailed (rawStart : String)
  | tloError (errorCode : String) (errorMessage : Option String)
  | success (transactionId : Option String) (recordsFound : JNum) (payload : ResultNode)
  | tloTimeout
deriving DecidableEq

/-- An HTTP response of the route: status code plus JSON body. -/
structure Response where
  status : Nat
  body : Body
deriving DecidableEq

/-- One structured log line emitted through `log(level, msg, extra)`; the only
per-request call site is `log("warn", "tlo_attempt_failed", {attempt, err})`. -/
structure LogEntry where
  level : String
  msg : String
  attempt : Nat
  err : String
deriving DecidableEq

/-- JavaScript `raw.slice(0, 500)` (code points stand in for UTF-16 units;
no claim depends on astral characters). -/
def jsSlice500 (s : String) : String := ⟨s.data.take 500⟩

/-- Classification of a completed exchange whose parse resolved, exactly as in
the handler: falsy result node gives 502 SOAP_PARSE_FAILED carrying the first
500 characters of the raw body; a truthy `ErrorCode` differing from `"0"`
gives 200 with the tloError body, the code and message passed through; any
other case takes the success branch with `Number(NumberOfRecordsFound)`. -/
def classifyExchange (ex : Exchange) (result : Option ResultNode) : Response :=
  match result with
  | none => ⟨502, .parseFailed (jsSlice500 ex.raw)⟩
  | some r =>
    match r.errorCode with
    | some ec =>
      if ec ≠ "" ∧ ec ≠ "0" then ⟨200, .tloError ec r.errorMessage⟩
      else ⟨200, .success r.transactionId (jsNumberOfField r.numberOfRecordsFound) r⟩
    | none => ⟨200, .success r.transactionId (jsNumberOfField r.numberOfRecordsFound) r⟩

/-- The retry loop of the route handler, started at attempt number 1. Each
iteration consumes one settled `callTlo` outcome. A transport rejection and a
parse rejection are caught by the same `catch`: both are logged with the
attempt number and the error message, and retried while the attempt number
does not exceed RETRIES, the final failure answering 504 TLO_TIMEOUT. A
resolved parse returns `classifyExchange` immediately. The result carries the
response, the log lines in emission order, and the number of upstream calls
performed; `none` means some attempt never settled and no response was sent. -/
def runAttempts (parse : String → ParseOutcome) :
    Nat → List Attempt → Option (Response × List LogEntry × Nat)
  | _, [] => none
  | n, .transportErr cause :: rest =>
    if n > RETRIES then some (⟨504, .tloTimeout⟩, [⟨"warn", "tlo_attempt_failed", n, cause⟩], 1)
    else (runAttempts parse (n + 1) rest).map
      (fun p => (p.1, ⟨"warn", "tlo_attempt_failed", n, cause⟩ :: p.2.1, p.2.2 + 1))
  | n, .completed ex :: rest =>
    match parse ex.raw with
    | .perr m =>
      if n > RETRIES then some (⟨504, .tloTimeout⟩, [⟨"warn", "tlo_attempt_failed", n, m⟩], 1)
      else (runAttempts parse (n + 1) rest).map
        (fun p => (p.1, ⟨"warn", "tlo_attempt_failed", n, m⟩ :: p.2.1, p.2.2 + 1))
    | .pok result => some (classifyExchange ex result, [], 1)

/-- An inbound request to POST /tlo/person-search: the value of the
x-shared-secret header (if sent) and the three body fields (if present). -/
structure Req where
  xSharedSecret : Option String
  firstName : Option JsValue
  lastName : Option JsValue
  ssn : Option JsValue
deriving DecidableEq

/-- Everything observable about one handled request: the response, the log
lines, how many upstream calls were performed, and the envelope sent upstream
(`none` when `buildSoap` was never reached). -/
structure HandlerResult where
  response : Response
  logs : List LogEntry
  upstreamCalls : Nat
  soapSent : Option String
deriving DecidableEq

/-- The POST /tlo/person-search handler: header-equality authentication,
truthiness validation of the three body fields, envelope construction, then
the retry loop. `none` means the handler never responded (an upstream attempt
never settled). -/
def handle (cfg : Config) (parse : String → ParseOutcome) (req : Req)
    (attempts : List Attempt) : Option HandlerResult :=
  if req.xSharedSecret ≠ cfg.sharedSecret then
    some ⟨⟨401, .unauthorized⟩, [], 0, none⟩
  else if !truthyOpt req.firstName || !truthyOpt req.lastName || !truthyOpt req.ssn then
    some ⟨⟨400, .invalidInput⟩, [], 0, none⟩
  else
    let soap := buildSoapJs cfg.tloUsername cfg.tloPassword req.firstName req.lastName req.ssn
    (runAttempts parse 1 attempts).map (fun p => ⟨p.1, p.2.1, p.2.2, some soap⟩)

/-! ### Reading the envelope back with a conformant XML parser

`parseEnvelope` reads a document of exactly the shape `buildSoap` emits the
way a conformant XML processor reads it: the fixed markup (declaration, tags,
attributes, fixed scalar children) is matched literally, and the five
character-data regions are scanned up to the next `<`, decoding the five
predefined entity references; a bare `&` without a valid entity, or markup
where character data is expected, fails the parse. Success therefore means
the document is well-formed with the fixed element structure and that each
interpolated string is literal element content decoding back to the original. -/

/-- Single-character escape: what one character of user text contributes to
the escaped output. -/
def escChar (c : Char) : List Char :=
  if c = '&' then ampEnt
  else if c = '<' then ltEnt
  else if c = '>' then gtEnt
  else if c = '"' then quotEnt
  else if c = apos then aposEnt
  else [c]

/-- Character-by-character form of the escape of a whole string. -/
def escAll : List Char → List Char
  | [] => []
  | c :: cs => escChar c ++ escAll cs

/-- Character-data scanner: decodes text up to the next `<` (left in the
remainder), resolving the five predefined entities and rejecting any other
use of `&`. -/
def collectText : List Char → Option (List Char × List Char)
  | [] => some ([], [])
  | '<' :: cs => some ([], '<' :: cs)
  | '&' :: 'a' :: 'm' :: 'p' :: ';' :: cs2 =>
    (collectText cs2).map (fun q => ('&' :: q.1, q.2))
  | '&' :: 'l' :: 't' :: ';' :: cs2 =>
    (collectText cs2).map (fun q => ('<' :: q.1, q.2))
  | '&' :: 'g' :: 't' :: ';' :: cs2 =>
    (collectText cs2).map (fun q => ('>' :: q.1, q.2))
  | '&' :: 'q' :: 'u' :: 'o' :: 't' :: ';' :: cs2 =>
    (collectText cs2).map (fun q => ('"' :: q.1, q.2))
  | '&' :: 'a' :: 'p' :: 'o' :: 's' :: ';' :: cs2 =>
    (collectText cs2).map (fun q => (apos :: q.1, q.2))
  | '&' :: _ => none
  | c :: cs => (collectText cs).map (fun q => (c :: q.1, q.2))

/-- Literal matcher: consumes exactly the given fixed markup. -/
def expectLit : List Char → List Char → Option (List Char)
  | [], cs => some cs
  | _ :: _, [] => none
  | q :: qs, c :: cs => if c = q then expectLit qs cs else none

/-- Conformant reading of a PersonSearch envelope: fixed markup matched
literally, the five character-data regions entity-decoded. Succeeds only when
the whole input is consumed. -/
def parseEnvelope (doc : String) : Option (String × String × String × String × String) := do
  let r1 ← expectLit soapSeg1.data doc.data
  let pu ← collectText r1
  let r2 ← expectLit soapSeg2.data pu.2
  let pp ← collectText r2
  let r3 ← expectLit soapSeg3.data pp.2
  let pf ← collectText r3
  let r4 ← expectLit soapSeg4.data pf.2
  let pl ← collectText r4
  let r5 ← expectLit soapSeg5.data pl.2
  let ps ← collectText r5
  let r6 ← expectLit soapSeg6.data ps.2
  match r6 with
  | [] => some (⟨pu.1⟩, ⟨pp.1⟩, ⟨pf.1⟩, ⟨pl.1⟩, ⟨ps.1⟩)
  | _ => none

/-! ### Accounting of strings placed into logs and responses

For the credential-non-leak claim, every string the handler can place into a
log line or a response body is enumerated: fixed protocol literals (JSON keys
and constant values), strings derived from upstream data (the bounded raw
prefix, result-node fields, error causes), and nothing else. -/

/-- Fixed literals (JSON keys and constant values) that can occur in any
response body or log line, independent of configuration and input. -/
def fixedProtocolStrings : List String :=
  ["ok", "error", "UNAUTHORIZED", "INVALID_INPUT", "SOAP_PARSE_FAILED", "rawStart",
    "tloError", "errorCode", "errorMessage", "transactionId", "recordsFound", "data",
    "TLO_TIMEOUT", "warn", "tlo_attempt_failed", "attempt", "err", "ts", "level",
    "msg", "true", "false"]

/-- Every string contained in a result node (the `data` passthrough of the
success body). -/
def resultNodeStrings (r : ResultNode) : List String :=
  r.errorCode.toList ++ r.errorMessage.toList ++ r.transactionId.toList ++
    r.numberOfRecordsFound.toList ++ r.others.map Prod.fst ++ r.others.map Prod.snd

/-- The non-constant strings of a response body. -/
def bodyDynamicStrings : Body → List String
  | .unauthorized => []
  | .invalidInput => []
  | .tloTimeout => []
  | .parseFailed rs => [rs]
  | .tloError ec em => ec :: em.toList
  | .success tid _ payload => tid.toList ++ resultNodeStrings payload

/-- Every string occurring in the response and the log lines of a handled
request (the fixed literals are accounted separately). -/
def handlerStrings (hr : HandlerResult) : List String :=
  bodyDynamicStrings hr.response.body ++ hr.logs.flatMap (fun e => [e.level, e.msg, e.err])

/-- Occurrence of `needle` as a contiguous substring of `hay`. -/
abbrev strContains (hay needle : String) : Prop :=
  needle.data <:+: hay.data

/-! ### Claim theorems: authentication, validation, retry loop, classification -/

/-- C6: any request whose x-shared-secret header differs from the configured
secret (including an absent header) is answered 401 UNAUTHORIZED with no log
lines, zero upstream calls, and no envelope ever built. -/
theorem auth_mismatch_401_no_upstream (cfg : Config) (parse : String → ParseOutcome)
    (req : Req) (attempts : List Attempt) (h : req.xSharedSecret ≠ cfg.sharedSecret) :
    handle cfg parse req attempts = some ⟨⟨401, .unauthorized⟩, [], 0, none⟩ := by
  simp [handle, h]

/-- Witness for C6 at a concrete mismatching header. -/
theorem auth_mismatch_401_no_upstream_witness :
    handle ⟨some "secret", "u", "p"⟩ (fun _ => .pok none)
      ⟨some "wrong", some (.str "A"), some (.str "B"), some (.str "C")⟩
      [.transportErr "reset"] = some ⟨⟨401, .unauthorized⟩, [], 0, none⟩ :=
  auth_mismatch_401_no_upstream _ _ _ _ (by decide)

/-- C7 (amended): a request field that is absent or falsy (null, false, 0 or
the empty string) is rejected 400 INVALID_INPUT with zero upstream calls; the
source tests JavaScript truthiness, not being a non-empty string. -/
theorem falsy_field_400_no_upstream (cfg : Config) (parse : String → ParseOutcome)
    (req : Req) (attempts : List Attempt)
    (hauth : req.xSharedSecret = cfg.sharedSecret)
    (h : truthyOpt req.firstName = false ∨ truthyOpt req.lastName = false ∨
      truthyOpt req.ssn = false) :
    handle cfg parse req attempts = some ⟨⟨400, .invalidInput⟩, [], 0, none⟩ := by
  rcases h with h | h | h <;> simp [handle, hauth, h]

/-- Witness for C7 at a concrete request missing its ssn field. -/
theorem falsy_field_400_no_upstream_witness :
    handle ⟨some "s", "u", "p"⟩ (fun _ => .pok none)
      ⟨some "s", some (.str "A"), some (.str "B"), none⟩
      [.transportErr "reset"] = some ⟨⟨400, .invalidInput⟩, [], 0, none⟩ :=
  falsy_field_400_no_upstream _ _ _ _ rfl (by decide)

/-- Counterexample to C7 as stated: `firstName` equal to the JSON number 7 is
not a non-empty string, yet the request is not rejected — the handler calls
upstream three times and answers 504. -/
theorem number_field_not_rejected :
    (handle ⟨some "s", "u", "p"⟩ (fun _ => .pok none)
        ⟨some "s", some (.num 7), some (.str "Doe"), some (.str "123")⟩
        [.transportErr "reset", .transportErr "reset", .transportErr "reset"]).map
      (fun hr => (hr.response, hr.upstreamCalls)) = some (⟨504, .tloTimeout⟩, 3) := by
  decide

/-- C5: when the first three attempts all transport-fail, the handler responds
exactly once with 504 TLO_TIMEOUT, having performed exactly three upstream
calls, and the log lines carry attempt numbers 1, 2, 3 with each cause, in
emission order (each line logged before the next attempt or the final
response). Any further provided outcomes are never consumed. -/
theorem retry_exhaustion_504_with_logs (cfg : Config) (parse : String → ParseOutcome)
    (req : Req) (c1 c2 c3 : String) (rest : List Attempt)
    (hauth : req.xSharedSecret = cfg.sharedSecret)
    (h1 : truthyOpt req.firstName = true) (h2 : truthyOpt req.lastName = true)
    (h3 : truthyOpt req.ssn = true) :
    handle cfg parse req (.transportErr c1 :: .transportErr c2 :: .transportErr c3 :: rest) =
      some ⟨⟨504, .tloTimeout⟩,
        [⟨"warn", "tlo_attempt_failed", 1, c1⟩, ⟨"warn", "tlo_attempt_failed", 2, c2⟩,
          ⟨"warn", "tlo_attempt_failed", 3, c3⟩], 3,
        some (buildSoapJs cfg.tloUsername cfg.tloPassword req.firstName req.lastName req.ssn)⟩ := by
  simp [handle, hauth, h1, h2, h3, runAttempts, RETRIES]

/-- Witness for C5 at a concrete request and three concrete causes. -/
theorem retry_exhaustion_504_with_logs_witness :
    handle ⟨some "s", "u", "p"⟩ (fun _ => .pok none)
      ⟨some "s", some (.str "A"), some (.str "B"), some (.str "C")⟩
      [.transportErr "x", .transportErr "y", .transportErr "z"] =
      some ⟨⟨504, .tloTimeout⟩,
        [⟨"warn", "tlo_attempt_failed", 1, "x"⟩, ⟨"warn", "tlo_attempt_failed", 2, "y"⟩,
          ⟨"warn", "tlo_attempt_failed", 3, "z"⟩], 3,
        some (buildSoapJs "u" "p" (some (.str "A")) (some (.str "B")) (some (.str "C")))⟩ :=
  retry_exhaustion_504_with_logs _ _ _ _ _ _ _ rfl rfl rfl rfl

/-- C1 (amended): an attempt whose `callTlo` promise resolves is never retried
when its body parses — the loop immediately returns the classification of that
exchange, whatever its HTTP status and whatever the classification; but when
the body is malformed the xml2js rejection is caught by the same catch as a
transport failure, so the attempt is logged and retried exactly as a transport
failure with the parse error as cause. -/
theorem completed_exchange_stops_retry_unless_parse_throws
    (parse : String → ParseOutcome) (n : Nat) (ex : Exchange) (rest : List Attempt) :
    (∀ result, parse ex.raw = .pok result →
      runAttempts parse n (.completed ex :: rest) = some (classifyExchange ex result, [], 1)) ∧
    (∀ m, parse ex.raw = .perr m →
      runAttempts parse n (.completed ex :: rest) =
        runAttempts parse n (.transportErr m :: rest)) := by
  constructor
  · intro result h; simp [runAttempts, h]
  · intro m h; simp [runAttempts, h]

/-- Witness for C1 at a concrete resolved parse. -/
theorem completed_exchange_stops_retry_unless_parse_throws_witness :
    runAttempts (fun _ => .pok none) 1 [.completed ⟨200, "x"⟩] =
      some (⟨502, .parseFailed "x"⟩, [], 1) := by
  have h := (completed_exchange_stops_retry_unless_parse_throws
    (fun _ => .pok none) 1 ⟨200, "x"⟩ []).1 none rfl
  rw [h]; decide

/-- Counterexample to C1 as stated: attempt 1 returns a completed exchange
(HTTP 200) whose body is malformed, so xml2js rejects; the handler does not
hand it onward but retries, performing three upstream calls and answering 504. -/
theorem completed_malformed_exchange_retried :
    (handle ⟨some "s", "u", "p"⟩ (fun _ => .perr "Non-whitespace before first tag")
        ⟨some "s", some (.str "A"), some (.str "B"), some (.str "C")⟩
        [.completed ⟨200, "<html>bad gateway</html"⟩, .transportErr "reset",
          .transportErr "reset"]).map
      (fun hr => (hr.response, hr.upstreamCalls)) = some (⟨504, .tloTimeout⟩, 3) := by
  decide

/-- C2 (amended): a completed exchange whose parse resolves but yields no
recognizable result node (unexpected schema, or the null result xml2js returns
for an empty body) is answered 502 SOAP_PARSE_FAILED carrying the first 500
characters of the raw body, never more. -/
theorem resolved_parse_without_result_yields_502 (parse : String → ParseOutcome)
    (n : Nat) (ex : Exchange) (rest : List Attempt) (h : parse ex.raw = .pok none) :
    runAttempts parse n (.completed ex :: rest) =
      some (⟨502, .parseFailed (jsSlice500 ex.raw)⟩, [], 1) ∧
    (jsSlice500 ex.raw).data.length ≤ 500 := by
  constructor
  · simp [runAttempts, h, classifyExchange]
  · simp [jsSlice500]

/-- Witness for C2 at a concrete schema-mismatched body. -/
theorem resolved_parse_without_result_yields_502_witness :
    runAttempts (fun _ => .pok none) 1 [.completed ⟨200, "<oops/>"⟩] =
      some (⟨502, .parseFailed "<oops/>"⟩, [], 1) := by
  have h := (resolved_parse_without_result_yields_502
    (fun _ => .pok none) 1 ⟨200, "<oops/>"⟩ [] rfl).1
  rw [h]; decide

/-- Counterexample to C2 as stated: three completed exchanges whose bodies are
malformed XML; the claimed 502 SOAP_PARSE_FAILED never happens — the parse
rejections are retried like transport failures and the handler answers 504. -/
theorem malformed_body_not_502 :
    (handle ⟨some "s", "u", "p"⟩ (fun _ => .perr "Unexpected end")
        ⟨some "s", some (.str "A"), some (.str "B"), some (.str "C")⟩
        [.completed ⟨200, "<broken"⟩, .completed ⟨200, "<broken"⟩,
          .completed ⟨200, "<broken"⟩]).map
      (fun hr => (hr.response, hr.upstreamCalls)) = some (⟨504, .tloTimeout⟩, 3) := by
  decide

/-- C4 (amended): a result node whose error-code field is a truthy string
other than `"0"` is answered HTTP 200 with the tloError body, the upstream
code and message passed through unmodified. (A falsy error-code — absent or
the empty string — takes the success branch instead.) -/
theorem truthy_error_code_yields_tlo_error (parse : String → ParseOutcome)
    (n : Nat) (ex : Exchange) (rest : List Attempt) (r : ResultNode) (ec : String)
    (hp : parse ex.raw = .pok (some r)) (hec : r.errorCode = some ec)
    (h1 : ec ≠ "") (h2 : ec ≠ "0") :
    runAttempts parse n (.completed ex :: rest) =
      some (⟨200, .tloError ec r.errorMessage⟩, [], 1) := by
  simp [runAttempts, hp, classifyExchange, hec, h1, h2]

/-- Witness for C4 at the spec's example code 12. -/
theorem truthy_error_code_yields_tlo_error_witness :
    runAttempts (fun _ => .pok (some ⟨some "12", some "No records", some "T1", none, []⟩)) 1
      [.completed ⟨200, "<r/>"⟩] =
      some (⟨200, .tloError "12" (some "No records")⟩, [], 1) :=
  truthy_error_code_yields_tlo_error _ 1 ⟨200, "<r/>"⟩ [] _ "12" rfl rfl
    (by decide) (by decide)

/-- Counterexample to C4 as stated: an ErrorCode equal to the empty string is
a value other than `"0"`, but being falsy it takes the success branch — the
handler answers ok-true success, not the claimed tloError body. -/
theorem empty_error_code_takes_success_branch :
    runAttempts (fun _ => .pok (some ⟨some "", some "m", some "T1", some "2", []⟩)) 1
      [.completed ⟨200, "<ok/>"⟩] =
      some (⟨200, .success (some "T1") (jsNumberOfField (some "2"))
        ⟨some "", some "m", some "T1", some "2", []⟩⟩, [], 1) := by
  simp [runAttempts, classifyExchange]

/-- C10: a result node with a falsy or `"0"` error code whose
NumberOfRecordsFound is missing or not a numeric string still takes the
success branch: HTTP 200, ok true, the payload passed through, and
recordsFound equal to `Number(NumberOfRecordsFound) = NaN` (which `res.json`
serializes as null) — no parse-failure classification occurs. -/
theorem success_branch_tolerates_missing_or_non_numeric_records
    (parse : String → ParseOutcome) (n : Nat) (ex : Exchange) (rest : List Attempt)
    (r : ResultNode) (hp : parse ex.raw = .pok (some r))
    (hec : r.errorCode = none ∨ r.errorCode = some "" ∨ r.errorCode = some "0")
    (hnum : r.numberOfRecordsFound = none ∨
      ∃ s, r.numberOfRecordsFound = some s ∧ jsStringToNumber s = .nan) :
    runAttempts parse n (.completed ex :: rest) =
      some (⟨200, .success r.transactionId .nan r⟩, [], 1) := by
  have hr : jsNumberOfField r.numberOfRecordsFound = .nan := by
    rcases hnum with h | ⟨s, hs, hn⟩
    · simp [jsNumberOfField, h]
    · simp [jsNumberOfField, hs, hn]
  rcases hec with h | h | h <;> simp [runAttempts, hp, classifyExchange, h, hr]

/-- Witness for C10 at a concrete non-numeric records field. -/
theorem success_branch_tolerates_missing_or_non_numeric_records_witness :
    runAttempts (fun _ => .pok (some ⟨some "0", none, some "T", some "N/A", []⟩)) 1
      [.completed ⟨200, "<r/>"⟩] =
      some (⟨200, .success (some "T") .nan ⟨some "0", none, some "T", some "N/A", []⟩⟩, [], 1) :=
  success_branch_tolerates_missing_or_non_numeric_records _ 1 ⟨200, "<r/>"⟩ [] _ rfl
    (Or.inr (Or.inr rfl)) (Or.inr ⟨"N/A", rfl, by decide⟩)

/-- C3 evaluation at the failing input: when the socket timeout fires without
a completed exchange the attempt stays pending — `callTlo` never settles,
because no listener for the `timeout` event is installed and the request is
not destroyed; by contrast a request `error` event settles it at once. -/
theorem timeout_event_leaves_attempt_pending :
    callTloOutcome [] [.reqTimeout] = none ∧
    callTloOutcome [] [.reqTimeout, .reqTimeout, .reqTimeout] = none ∧
    callTloOutcome [] [.resData "<soap:Envelope>", .reqTimeout] = none ∧
    callTloOutcome [] [.reqError "socket hang up"] = some (.error "socket hang up") :=
  ⟨rfl, rfl, rfl, rfl⟩

/-! ### Lemmas for the envelope round-trip (C8) -/

/-- Concatenation of strings concatenates their character lists. -/
theorem strData_append (a b : String) : (a ++ b).data = a.data ++ b.data := rfl

/-- The single-character replacement distributes over concatenation. -/
theorem replAll_append (c : Char) (rep : List Char) (a b : List Char) :
    replAll c rep (a ++ b) = replAll c rep a ++ replAll c rep b := by
  induction a with
  | nil => rfl
  | cons x xs ih => simp [replAll, ih]

/-- On a single character, the five sequential replacements of the source
agree with the single-pass `escChar`. -/
theorem escChain_single (c : Char) :
    replAll apos aposEnt (replAll '"' quotEnt (replAll '>' gtEnt
      (replAll '<' ltEnt (replAll '&' ampEnt [c])))) = escChar c := by
  by_cases h1 : c = '&'
  · subst h1; rfl
  by_cases h2 : c = '<'
  · subst h2; rfl
  by_cases h3 : c = '>'
  · subst h3; rfl
  by_cases h4 : c = '"'
  · subst h4; rfl
  by_cases h5 : c = apos
  · subst h5; rfl
  simp [replAll, escChar, h1, h2, h3, h4, h5]

/-- The five sequential replacements of the source agree with the single-pass
escape on every string. -/
theorem escChain_eq (l : List Char) :
    replAll apos aposEnt (replAll '"' quotEnt (replAll '>' gtEnt
      (replAll '<' ltEnt (replAll '&' ampEnt l)))) = escAll l := by
  induction l with
  | nil => rfl
  | cons c t ih =>
    have h : replAll '&' ampEnt (c :: t) =
        replAll '&' ampEnt [c] ++ replAll '&' ampEnt t := by
      have := replAll_append '&' ampEnt [c] t
      simpa using this
    rw [h, replAll_append, replAll_append, replAll_append, replAll_append,
      escChain_single, ih]
    rfl

/-- Characters of the escaped output, as the concatenation of per-character
contributions. -/
theorem xmlEscape_data (s : String) : (xmlEscape s).data = escAll s.data :=
  escChain_eq s.data

/-- Escaped text contains no markup-significant character: no `<` or `>`
(tag injection), no `"` (attribute-value escape), no apostrophe. -/
theorem escAll_no_markup (l : List Char) :
    ∀ c ∈ escAll l, c ≠ '<' ∧ c ≠ '>' ∧ c ≠ '"' ∧ c ≠ apos := by
  induction l with
  | nil => intro c hc; simp [escAll] at hc
  | cons x xs ih =>
    intro c hc
    rw [escAll, List.mem_append] at hc
    rcases hc with hc | hc
    · by_cases h1 : x = '&'
      · subst h1
        rw [show escChar '&' = ['&', 'a', 'm', 'p', ';'] from rfl] at hc
        fin_cases hc <;> decide
      by_cases h2 : x = '<'
      · subst h2
        rw [show escChar '<' = ['&', 'l', 't', ';'] from rfl] at hc
        fin_cases hc <;> decide
      by_cases h3 : x = '>'
      · subst h3
        rw [show escChar '>' = ['&', 'g', 't', ';'] from rfl] at hc
        fin_cases hc <;> decide
      by_cases h4 : x = '"'
      · subst h4
        rw [show escChar '"' = ['&', 'q', 'u', 'o', 't', ';'] from rfl] at hc
        fin_cases hc <;> decide
      by_cases h5 : x = apos
      · subst h5
        rw [show escChar apos = ['&', 'a', 'p', 'o', 's', ';'] from rfl] at hc
        fin_cases hc <;> decide
      simp [escChar, h1, h2, h3, h4, h5] at hc
      subst hc
      exact ⟨h2, h3, h4, h5⟩
    · exact ih c hc

/-- Scanning stops at a `<` without consuming it. -/
theorem collectText_stop (cs : List Char) :
    collectText ('<' :: cs) = some ([], '<' :: cs) := rfl

/-- Scanning decodes the amp entity. -/
theorem collectText_ent_amp (cs2 : List Char) :
    collectText ('&' :: 'a' :: 'm' :: 'p' :: ';' :: cs2) =
      (collectText cs2).map (fun q => ('&' :: q.1, q.2)) := rfl

/-- Scanning decodes the lt entity. -/
theorem collectText_ent_lt (cs2 : List Char) :
    collectText ('&' :: 'l' :: 't' :: ';' :: cs2) =
      (collectText cs2).map (fun q => ('<' :: q.1, q.2)) := rfl

/-- Scanning decodes the gt entity. -/
theorem collectText_ent_gt (cs2 : List Char) :
    collectText ('&' :: 'g' :: 't' :: ';' :: cs2) =
      (collectText cs2).map (fun q => ('>' :: q.1, q.2)) := rfl

/-- Scanning decodes the quot entity. -/
theorem collectText_ent_quot (cs2 : List Char) :
    collectText ('&' :: 'q' :: 'u' :: 'o' :: 't' :: ';' :: cs2) =
      (collectText cs2).map (fun q => ('"' :: q.1, q.2)) := rfl

/-- Scanning decodes the apos entity. -/
theorem collectText_ent_apos (cs2 : List Char) :
    collectText ('&' :: 'a' :: 'p' :: 'o' :: 's' :: ';' :: cs2) =
      (collectText cs2).map (fun q => (apos :: q.1, q.2)) := rfl

set_option maxHeartbeats 2000000 in
/-- Scanning passes any character other than markup `<` and entity `&`
through unchanged. -/
theorem collectText_plain (c : Char) (cs : List Char) (h1 : ¬c = '&') (h2 : ¬c = '<') :
    collectText (c :: cs) = (collectText cs).map (fun q => (c :: q.1, q.2)) := by
  rw [collectText.eq_def]
  split <;> simp_all

/-- The character-data scanner undoes the escape: on escaped text followed by
a `<`, it returns exactly the original text and stops at the `<`. -/
theorem collectText_escAll (s : List Char) :
    ∀ r, r.head? = some '<' → collectText (escAll s ++ r) = some (s, r) := by
  induction s with
  | nil =>
    intro r hr
    cases r with
    | nil => simp at hr
    | cons c r2 =>
      have hc : c = '<' := by simpa using hr
      subst hc
      simpa [escAll] using collectText_stop r2
  | cons c t ih =>
    intro r hr
    have hrec := ih r hr
    by_cases h1 : c = '&'
    · subst h1
      rw [escAll, show escChar '&' = ['&', 'a', 'm', 'p', ';'] from rfl]
      simp only [List.cons_append, List.nil_append, List.append_assoc]
      rw [collectText_ent_amp, hrec]
      rfl
    by_cases h2 : c = '<'
    · subst h2
      rw [escAll, show escChar '<' = ['&', 'l', 't', ';'] from rfl]
      simp only [List.cons_append, List.nil_append, List.append_assoc]
      rw [collectText_ent_lt, hrec]
      rfl
    by_cases h3 : c = '>'
    · subst h3
      rw [escAll, show escChar '>' = ['&', 'g', 't', ';'] from rfl]
      simp only [List.cons_append, List.nil_append, List.append_assoc]
      rw [collectText_ent_gt, hrec]
      rfl
    by_cases h4 : c = '"'
    · subst h4
      rw [escAll, show escChar '"' = ['&', 'q', 'u', 'o', 't', ';'] from rfl]
      simp only [List.cons_append, List.nil_append, List.append_assoc]
      rw [collectText_ent_quot, hrec]
      rfl
    by_cases h5 : c = apos
    · subst h5
      rw [escAll, show escChar apos = ['&', 'a', 'p', 'o', 's', ';'] from rfl]
      simp only [List.cons_append, List.nil_append, List.append_assoc]
      rw [collectText_ent_apos, hrec]
      rfl
    have he : escChar c = [c] := by simp [escChar, h1, h2, h3, h4, h5]
    rw [escAll, he, List.append_assoc]
    simp only [List.cons_append, List.nil_append]
    rw [collectText_plain c _ h1 h2, hrec]
    rfl

/-- The literal matcher consumes exactly its pattern. -/
theorem expectLit_self (pat : List Char) : ∀ r, expectLit pat (pat ++ r) = some r := by
  induction pat with
  | nil => intro r; rfl
  | cons q qs ih => intro r; simp [expectLit, ih]

/-- The literal matcher consumes its pattern standing alone. -/
theorem expectLit_whole (pat : List Char) : expectLit pat pat = some [] := by
  have h := expectLit_self pat []
  rwa [List.append_nil] at h

/-- Reduction of the Option bind of a present value, in the form produced by
do-notation. -/
theorem optSomeBind {α β : Type} (a : α) (f : α → Option β) : (some a >>= f) = f a := rfl

/-- The head of an append is the head of its nonempty first part. -/
theorem head_of_append {a : List Char} (b : List Char) {c : Char}
    (h : a.head? = some c) : (a ++ b).head? = some c := by
  cases a with
  | nil => simp at h
  | cons x xs => simpa using h

/-- C8 round-trip: the envelope built from any five strings is read back by
the conformant reader, recovering exactly the original credential and search
strings as the five element contents. -/
theorem parseEnvelope_buildSoap (u p fn ln sn : String) :
    parseEnvelope (buildSoap u p fn ln sn) = some (u, p, fn, ln, sn) := by
  have h2 : soapSeg2.data.head? = some '<' := rfl
  have h3 : soapSeg3.data.head? = some '<' := rfl
  have h4 : soapSeg4.data.head? = some '<' := rfl
  have h5 : soapSeg5.data.head? = some '<' := rfl
  have h6 : soapSeg6.data.head? = some '<' := rfl
  simp only [parseEnvelope, buildSoap, strData_append, xmlEscape_data, List.append_assoc,
    expectLit_self, optSomeBind]
  rw [collectText_escAll u.data _ (head_of_append _ h2)]
  simp only [optSomeBind]
  rw [expectLit_self]
  simp only [optSomeBind]
  rw [collectText_escAll p.data _ (head_of_append _ h3)]
  simp only [optSomeBind]
  rw [expectLit_self]
  simp only [optSomeBind]
  rw [collectText_escAll fn.data _ (head_of_append _ h4)]
  simp only [optSomeBind]
  rw [expectLit_self]
  simp only [optSomeBind]
  rw [collectText_escAll ln.data _ (head_of_append _ h5)]
  simp only [optSomeBind]
  rw [expectLit_self]
  simp only [optSomeBind]
  rw [collectText_escAll sn.data _ h6]
  simp only [optSomeBind]
  rw [expectLit_whole]
  simp only [optSomeBind]

/-- C8: for every SearchQuery and credential pair, including strings holding
any of the five reserved XML characters, the built envelope is the fixed
well-formed template in which each user-supplied and credential string appears
only as escaped literal element content — escaped text contains none of the
markup characters, so no tag can be injected — and the envelope round-trips
through the conformant reader, which recovers the five original strings
exactly. -/
theorem soap_envelope_escaped_wellformed_roundtrip (u p fn ln sn : String) :
    parseEnvelope (buildSoap u p fn ln sn) = some (u, p, fn, ln, sn) ∧
    (∀ t : String, ∀ c ∈ (xmlEscape t).data, c ≠ '<' ∧ c ≠ '>' ∧ c ≠ '"' ∧ c ≠ apos) := by
  refine ⟨parseEnvelope_buildSoap u p fn ln sn, ?_⟩
  intro t c hc
  rw [xmlEscape_data] at hc
  exact escAll_no_markup t.data c hc

/-- Witness for C8 at strings exercising all five reserved characters. -/
theorem soap_envelope_escaped_wellformed_roundtrip_witness :
    parseEnvelope (buildSoap "a&b" "p<q" "Jo>hn" "O\"Hara" ⟨['1', apos, '2']⟩) =
      some ("a&b", "p<q", "Jo>hn", "O\"Hara", ⟨['1', apos, '2']⟩) :=
  (soap_envelope_escaped_wellformed_roundtrip "a&b" "p<q" "Jo>hn" "O\"Hara"
    ⟨['1', apos, '2']⟩).1

/-! ### Lemmas for the credential-non-leak claim (C9) -/

/-- A substring of the bounded prefix is a substring of the whole body. -/
theorem strContains_slice (s cred : String) (h : strContains (jsSlice500 s) cred) :
    strContains s cred := by
  have hp : (jsSlice500 s).data <+: s.data := List.take_prefix 500 s.data
  exact h.trans hp.isInfix

/-- The transaction id is among the strings of its node. -/
theorem tid_mem_resultNodeStrings {s : String} (r : ResultNode)
    (h : s ∈ r.transactionId.toList) : s ∈ resultNodeStrings r := by
  simp only [resultNodeStrings, List.mem_append]
  tauto

/-- The error code is among the strings of its node. -/
theorem ec_mem_resultNodeStrings {s : String} (r : ResultNode)
    (h : s ∈ r.errorCode.toList) : s ∈ resultNodeStrings r := by
  simp only [resultNodeStrings, List.mem_append]
  tauto

/-- The error message is among the strings of its node. -/
theorem em_mem_resultNodeStrings {s : String} (r : ResultNode)
    (h : s ∈ r.errorMessage.toList) : s ∈ resultNodeStrings r := by
  simp only [resultNodeStrings, List.mem_append]
  tauto

/-- Strings placed by the classification into the response body: a bounded
prefix of the raw body, or strings of the navigated result node. -/
theorem classifyExchange_strings (ex : Exchange) (result : Option ResultNode) (cred : String)
    (hraw : ¬ strContains ex.raw cred)
    (hnode : ∀ r, result = some r → ∀ s ∈ resultNodeStrings r, ¬ strContains s cred) :
    ∀ s ∈ bodyDynamicStrings (classifyExchange ex result).body, ¬ strContains s cred := by
  intro s hs
  cases result with
  | none =>
    simp only [classifyExchange, bodyDynamicStrings, List.mem_singleton] at hs
    subst hs
    intro hcon
    exact hraw (strContains_slice _ _ hcon)
  | some r =>
    have hr := hnode r rfl
    rcases hec : r.errorCode with _ | ec
    · simp only [classifyExchange, hec, bodyDynamicStrings, List.mem_append] at hs
      rcases hs with hs | hs
      · exact hr s (tid_mem_resultNodeStrings r hs)
      · exact hr s hs
    · simp only [classifyExchange, hec] at hs
      split at hs
      · simp only [bodyDynamicStrings, List.mem_cons] at hs
        rcases hs with rfl | hs
        · exact hr s (ec_mem_resultNodeStrings r (by simp [hec]))
        · exact hr s (em_mem_resultNodeStrings r hs)
      · simp only [bodyDynamicStrings, List.mem_append] at hs
        rcases hs with hs | hs
        · exact hr s (tid_mem_resultNodeStrings r hs)
        · exact hr s hs

/-- Strings placed by the retry loop into the response body and the log
lines: every log line is a warn/tlo_attempt_failed line whose cause comes from
a transport rejection or a parse rejection, and the body strings come from the
classification of some completed exchange of the run. -/
theorem runAttempts_strings (parse : String → ParseOutcome) (cred : String)
    (hperr : ∀ raw m, parse raw = .perr m → ¬ strContains m cred)
    (hpok : ∀ raw r, parse raw = .pok (some r) →
      ∀ s ∈ resultNodeStrings r, ¬ strContains s cred) :
    ∀ (attempts : List Attempt) (n : Nat) (resp : Response) (ls : List LogEntry) (k : Nat),
      runAttempts parse n attempts = some (resp, ls, k) →
      (∀ ex : Exchange, .completed ex ∈ attempts → ¬ strContains ex.raw cred) →
      (∀ m, .transportErr m ∈ attempts → ¬ strContains m cred) →
      (∀ s ∈ bodyDynamicStrings resp.body, ¬ strContains s cred) ∧
      (∀ e ∈ ls, e.level = "warn" ∧ e.msg = "tlo_attempt_failed" ∧
        ¬ strContains e.err cred) := by
  intro attempts
  induction attempts with
  | nil => intro n resp ls k h _ _; simp [runAttempts] at h
  | cons a rest ih =>
    intro n resp ls k h hraw hcause
    have hrawR : ∀ ex : Exchange, .completed ex ∈ rest → ¬ strContains ex.raw cred :=
      fun ex hex => hraw ex (List.mem_cons_of_mem _ hex)
    have hcauseR : ∀ m, .transportErr m ∈ rest → ¬ strContains m cred :=
      fun m hm => hcause m (List.mem_cons_of_mem _ hm)
    cases a with
    | transportErr cause =>
      have hcl : ¬ strContains cause cred := hcause cause (List.mem_cons_self _ _)
      rw [runAttempts] at h
      by_cases hn : n > RETRIES
      · rw [if_pos hn] at h
        simp only [Option.some.injEq, Prod.mk.injEq] at h
        obtain ⟨h1, h2, h3⟩ := h
        subst h1; subst h2
        exact ⟨by simp [bodyDynamicStrings], by simp [hcl]⟩
      · rw [if_neg hn] at h
        rcases Option.map_eq_some'.mp h with ⟨⟨resp2, ls2, k2⟩, hrun, heq⟩
        simp only [Prod.mk.injEq] at heq
        obtain ⟨h1, h2, h3⟩ := heq
        subst h1; subst h2
        have hi := ih (n + 1) resp2 ls2 k2 hrun hrawR hcauseR
        refine ⟨hi.1, ?_⟩
        intro e he
        rcases List.mem_cons.mp he with rfl | he
        · exact ⟨rfl, rfl, hcl⟩
        · exact hi.2 e he
    | completed ex =>
      have hxr : ¬ strContains ex.raw cred := hraw ex (List.mem_cons_self _ _)
      rw [runAttempts] at h
      rcases hp : parse ex.raw with m | result
      · simp only [hp] at h
        have hcl : ¬ strContains m cred := hperr ex.raw m hp
        by_cases hn : n > RETRIES
        · rw [if_pos hn] at h
          simp only [Option.some.injEq, Prod.mk.injEq] at h
          obtain ⟨h1, h2, h3⟩ := h
          subst h1; subst h2
          exact ⟨by simp [bodyDynamicStrings], by simp [hcl]⟩
        · rw [if_neg hn] at h
          rcases Option.map_eq_some'.mp h with ⟨⟨resp2, ls2, k2⟩, hrun, heq⟩
          simp only [Prod.mk.injEq] at heq
          obtain ⟨h1, h2, h3⟩ := heq
          subst h1; subst h2
          have hi := ih (n + 1) resp2 ls2 k2 hrun hrawR hcauseR
          refine ⟨hi.1, ?_⟩
          intro e he
          rcases List.mem_cons.mp he with rfl | he
          · exact ⟨rfl, rfl, hcl⟩
          · exact hi.2 e he
      · simp only [hp] at h
        simp only [Option.some.injEq, Prod.mk.injEq] at h
        obtain ⟨h1, h2, h3⟩ := h
        subst h1; subst h2
        refine ⟨?_, by simp⟩
        exact classifyExchange_strings ex result cred hxr
          (fun r hres => hpok ex.raw r (hres ▸ hp))

/-- C9: whatever the control path, no log line and no response body string
contains the configured upstream username, upstream password or shared
secret — granted that the strings supplied by the collaborators (the raw
upstream bytes, the fields xml2js extracts from them, and the error causes of
rejected attempts) do not themselves contain the credential, and that the
credential is not a substring of one of the fixed protocol words. -/
theorem no_credential_in_logs_or_response
    (cfg : Config) (parse : String → ParseOutcome) (req : Req) (attempts : List Attempt)
    (cred : String) (hr : HandlerResult)
    (hcred : cred = cfg.tloUsername ∨ cred = cfg.tloPassword ∨ some cred = cfg.sharedSecret)
    (hfixed : ∀ L ∈ fixedProtocolStrings, ¬ strContains L cred)
    (hraw : ∀ ex : Exchange, .completed ex ∈ attempts → ¬ strContains ex.raw cred)
    (hcause : ∀ m, .transportErr m ∈ attempts → ¬ strContains m cred)
    (hperr : ∀ raw m, parse raw = .perr m → ¬ strContains m cred)
    (hpok : ∀ raw r, parse raw = .pok (some r) →
      ∀ s ∈ resultNodeStrings r, ¬ strContains s cred)
    (hres : handle cfg parse req attempts = some hr) :
    ∀ s, s ∈ handlerStrings hr ++ fixedProtocolStrings → ¬ strContains s cred := by
  intro s hs
  rw [List.mem_append] at hs
  rcases hs with hs | hs
  case inr => exact hfixed s hs
  unfold handle at hres
  by_cases ha : req.xSharedSecret ≠ cfg.sharedSecret
  · rw [if_pos ha] at hres
    simp only [Option.some.injEq] at hres
    subst hres
    simp [handlerStrings, bodyDynamicStrings] at hs
  rw [if_neg ha] at hres
  by_cases hv : !truthyOpt req.firstName || !truthyOpt req.lastName || !truthyOpt req.ssn
  · rw [if_pos hv] at hres
    simp only [Option.some.injEq] at hres
    subst hres
    simp [handlerStrings, bodyDynamicStrings] at hs
  rw [if_neg hv] at hres
  rcases Option.map_eq_some'.mp hres with ⟨⟨resp, ls, k⟩, hrun, heq⟩
  subst heq
  have hmain := runAttempts_strings parse cred hperr hpok attempts 1 resp ls k hrun hraw hcause
  simp only [handlerStrings, List.mem_append] at hs
  rcases hs with hs | hs
  · exact hmain.1 s hs
  · rcases List.mem_flatMap.mp hs with ⟨e, he, hse⟩
    obtain ⟨hl, hm, hc⟩ := hmain.2 e he
    simp only [List.mem_cons, List.mem_singleton] at hse
    rcases hse with rfl | rfl | rfl | hemp
    · rw [hl]; exact hfixed _ (by simp [fixedProtocolStrings])
    · rw [hm]; exact hfixed _ (by simp [fixedProtocolStrings])
    · exact hc
    · simp at hemp

set_option maxRecDepth 8000 in
/-- Witness for C9: a concrete configuration, request and upstream outcome,
with the username as the tracked credential, applied at the one dynamic
response string (the 502 rawStart) of that run. -/
theorem no_credential_in_logs_or_response_witness :
    ¬ strContains "<nope/>" "alice" := by
  refine no_credential_in_logs_or_response ⟨some "sekret", "alice", "hunter2"⟩
    (fun _ => .pok none) ⟨some "sekret", some (.str "A"), some (.str "B"), some (.str "C")⟩
    [.completed ⟨200, "<nope/>"⟩] "alice"
    ⟨⟨502, .parseFailed "<nope/>"⟩, [], 1,
      some (buildSoapJs "alice" "hunter2" (some (.str "A")) (some (.str "B"))
        (some (.str "C")))⟩
    (Or.inl rfl) (by decide) ?_ ?_ ?_ ?_ ?_ "<nope/>"
    (by simp [handlerStrings, bodyDynamicStrings])
  · intro ex hex
    simp only [List.mem_singleton, Attempt.completed.injEq] at hex
    subst hex
    decide
  · intro m hm
    simp at hm
  · intro raw m h
    simp at h
  · intro raw r h
    simp at h
  · decide

end TloProxy
